import Mathlib

/-!
Verification development for the domain-monitor bot.

The embedding models the pure, state-transforming content of the repository:
`database.py` (record store over domains, proxies, check logs, subscribers),
`checker.py` (probe classification and the per-domain check routine of
`DomainChecker`), and the shared domain-name normalization that also appears
in `bot.py`.  Network I/O performed by `aiohttp` is abstracted as a function
from the requested URL to a `NetResult` describing what the request attempt
produced (a response with a status code, or one of the exception classes the
source catches).  Timestamps (`datetime.utcnow()`) are modelled by a logical
clock `now : Nat` on the store, bumped whenever the source reads the clock.
Python character-level operations (`str.strip`, `str.lower`) are modelled on
ASCII, which is the alphabet of domain names the program handles.
-/

namespace DomainMonitor

/-- `str.strip()` / character test: whitespace, as in Python's default strip. -/
def isWs (c : Char) : Bool := c.isWhitespace

/-- `str.lower()` on one character (ASCII range, as domain names are ASCII). -/
def lowerChar (c : Char) : Char := c.toLower

/-- Drop matching characters from the right end of a list (`str.strip` handles
both ends; this is the right-end half). -/
def dropRightWhileList (p : Char → Bool) (l : List Char) : List Char :=
  (l.reverse.dropWhile p).reverse

/-- Python `s.strip()` on a character list: whitespace removed from both ends. -/
def trimList (l : List Char) : List Char :=
  dropRightWhileList isWs (l.dropWhile isWs)

/-- Python `s.strip("/")`: slashes removed from both ends. -/
def stripSlashList (l : List Char) : List Char :=
  dropRightWhileList (fun c => c == '/') (l.dropWhile (fun c => c == '/'))

/-- `Database._normalize_domain` / `BotService._normalize_domain` (identical
code in `database.py` lines 14-20 and `bot.py` lines 26-32), on character
lists: `value = name.strip().lower()`, then strip one `http://` or `https://`
prefix (an `elif`, so at most one), then `value.strip("/")`. -/
def normList (l : List Char) : List Char :=
  let value := (trimList l).map lowerChar
  let value :=
    if ("http://".data.isPrefixOf value) = true then value.drop 7
    else if ("https://".data.isPrefixOf value) = true then value.drop 8
    else value
  stripSlashList value

/-- `_normalize_domain` on strings. -/
def normalize_domain (name : String) : String := ⟨normList name.data⟩

/-- `checker.py` line 81: `url = domain if domain.startswith("http") else
f"https://{domain}"`. -/
def buildUrl (domain : String) : String :=
  if ("http".data.isPrefixOf domain.data) = true then domain
  else "https://" ++ domain

/-- What one `session.get(url, ...)` attempt produces: either an HTTP response
with a status code, or one of the exception classes caught in
`DomainChecker._perform_check` (`checker.py` lines 89-96).  The constructors
name the most-derived class raised; `clientError` carries
`type(exc).__name__` for the remaining `aiohttp.ClientError` subclasses. -/
inductive NetResult where
  | response (status : Nat)
  | certVerifyError
  | clientSSLError
  | clientError (excName : String)
  | timeoutError
  | sslOsError
deriving DecidableEq, Repr

/-- `DomainChecker._perform_check` (`checker.py` lines 77-96), with the
network abstracted as `net : URL → NetResult`.  The proxy selection and
randomized user-agent only shape how the request is routed, not how its
result is classified, so they are absorbed into `net`.  Classification:
status `< 400` is up; `>= 400` is down with `"HTTP <code>"`; the three
TLS/certificate exception arms yield `"ERR_SSL_PROTOCOL_ERROR"`; other
client errors yield the exception class name; `asyncio.TimeoutError` its
class name `"TimeoutError"`. -/
def perform_check (net : String → NetResult) (domain : String) :
    Bool × Option String :=
  match net (buildUrl domain) with
  | .response s =>
      if s < 400 then (true, none) else (false, some ("HTTP " ++ toString s))
  | .certVerifyError => (false, some "ERR_SSL_PROTOCOL_ERROR")
  | .clientSSLError => (false, some "ERR_SSL_PROTOCOL_ERROR")
  | .clientError n => (false, some n)
  | .timeoutError => (false, some "TimeoutError")
  | .sslOsError => (false, some "ERR_SSL_PROTOCOL_ERROR")

/-- A row of the `domains` table as consumed by the checker (`SELECT id,
name, last_status, last_error, last_checked` in `database.py`; the unused
`is_active` column is never selected and is omitted). -/
structure DomainRecord where
  id : Nat
  name : String
  last_status : Option String
  last_error : Option String
  last_checked : Option Nat
deriving DecidableEq, Repr

/-- A row of the `proxies` table (`database.py` schema lines 39-48). -/
structure Proxy where
  id : Nat
  host : String
  port : Nat
  username : Option String
  password : Option String
  country : Option String
  is_active : Bool
  created_at : Nat
deriving DecidableEq, Repr

/-- A row of the `check_logs` table (`database.py` schema lines 50-57; the
autoincrement surrogate `id` carries no information and is omitted). -/
structure CheckLog where
  domain_id : Nat
  checked_at : Nat
  status : String
  error : Option String
deriving DecidableEq, Repr

/-- The persistent store: the four relations of `database.py`, plus the
autoincrement counter for proxies and the logical clock. -/
structure DB where
  domains : List DomainRecord
  proxies : List Proxy
  check_logs : List CheckLog
  subscribers : List Int
  next_proxy_id : Nat
  now : Nat
deriving DecidableEq, Repr

/-- `Database.get_domain` (`database.py` lines 93-101): normalize the name
and look the row up by (unique) name. -/
def get_domain (db : DB) (name : String) : Option DomainRecord :=
  db.domains.find? (fun d => d.name == normalize_domain name)

/-- `Database.update_domain_status` (`database.py` lines 103-111):
`UPDATE domains SET last_status = ?, last_error = ?, last_checked = ?
WHERE id = ?`, the timestamp being `utcnow()`. -/
def update_domain_status (db : DB) (domain_id : Nat) (status : String)
    (error : Option String) : DB :=
  { db with
    domains := db.domains.map (fun d =>
      if d.id = domain_id then
        { d with last_status := some status, last_error := error,
                 last_checked := some db.now }
      else d),
    now := db.now + 1 }

/-- `Database.log_check` (`database.py` lines 113-119): append one row to
`check_logs` stamped with `utcnow()`. -/
def log_check (db : DB) (domain_id : Nat) (status : String)
    (error : Option String) : DB :=
  { db with
    check_logs := db.check_logs ++ [⟨domain_id, db.now, status, error⟩],
    now := db.now + 1 }

/-- `Database.add_proxy` (`database.py` lines 121-139): `UPDATE proxies SET
is_active = 0` (all rows), then insert the new proxy with `is_active = 1` and
`created_at = utcnow()`; returns the fresh autoincrement id. -/
def add_proxy (db : DB) (host : String) (port : Nat)
    (username password country : Option String) : DB × Nat :=
  let deactivated := db.proxies.map (fun p => { p with is_active := false })
  let newProxy : Proxy :=
    ⟨db.next_proxy_id, host, port, username, password, country, true, db.now⟩
  ({ db with
      proxies := deactivated ++ [newProxy],
      next_proxy_id := db.next_proxy_id + 1,
      now := db.now + 1 },
   db.next_proxy_id)

/-- The row selected by `ORDER BY created_at DESC LIMIT 1` (`database.py`
line 147): a row of maximal `created_at`, if any. -/
def latestProxy : List Proxy → Option Proxy
  | [] => none
  | p :: ps =>
    match latestProxy ps with
    | none => some p
    | some q => if q.created_at ≤ p.created_at then some p else some q

/-- `Database.remove_proxy` (`database.py` lines 141-151): delete the row
with the given id; if a row was deleted (`rowcount > 0`), set `is_active = 1`
on the remaining row with the latest `created_at`, and return `true`;
otherwise return `false` leaving the store untouched. -/
def remove_proxy (db : DB) (proxy_id : Nat) : DB × Bool :=
  if db.proxies.any (fun p => p.id == proxy_id) then
    let remaining := db.proxies.filter (fun p => p.id != proxy_id)
    let reactivated :=
      match latestProxy remaining with
      | none => remaining
      | some q => remaining.map (fun p =>
          if p.id = q.id then { p with is_active := true } else p)
    ({ db with proxies := reactivated }, true)
  else (db, false)

/-- Python's `x or default` for an optional string: `None` and the empty
string are falsy (used at `checker.py` lines 64 and 71). -/
def pyOrStr (x : Option String) (dflt : String) : String :=
  match x with
  | none => dflt
  | some s => if s = "" then dflt else s

/-- `checker.py` line 64: `previous_status = domain.get("last_status") or
"unknown"`. -/
def prevStatusOf (d : DomainRecord) : String := pyOrStr d.last_status "unknown"

/-- Observable actions of one check, in the order the source performs them:
the status `UPDATE`, the log `INSERT`, then any notifier calls. -/
inductive Event where
  | updateStatus (domain_id : Nat) (status : String) (error : Option String)
  | logCheck (domain_id : Nat) (status : String) (error : Option String)
  | notifyDown (name : String) (error : String)
  | notifyUp (name : String)
deriving DecidableEq, Repr

/-- Whether an event is a notifier call (`notify_downtime` / `notify_recovery`). -/
def Event.isNotification : Event → Bool
  | .notifyDown _ _ => true
  | .notifyUp _ => true
  | _ => false

/-- The notifier calls within an event trace. -/
def notificationsOf (evs : List Event) : List Event :=
  evs.filter Event.isNotification

/-- `DomainChecker._check_domain_record` (`checker.py` lines 57-75): probe,
compute `status`, read `previous_status` from the fetched record, then
unconditionally `update_domain_status` and `log_check`; afterwards, if
notifications are enabled and the status changed, call `notify_downtime`
when the new status is `"down"` (error defaulted to `"Unknown error"`), else
`notify_recovery` when recovering from `"down"` to `"up"`.  Returns the
updated store, the event trace in execution order, and the `(is_up, error)`
pair returned to the caller. -/
def check_domain_record (net : String → NetResult) (db : DB)
    (domain : DomainRecord) (notify_on_change : Bool) :
    DB × List Event × (Bool × Option String) :=
  let res := perform_check net domain.name
  let is_up := res.1
  let error := res.2
  let status := if is_up then "up" else "down"
  let previous_status := prevStatusOf domain
  let db1 := update_domain_status db domain.id status error
  let db2 := log_check db1 domain.id status error
  let notes : List Event :=
    if notify_on_change = true ∧ previous_status ≠ status then
      if status = "down" then
        [Event.notifyDown domain.name (pyOrStr error "Unknown error")]
      else if previous_status = "down" ∧ status = "up" then
        [Event.notifyUp domain.name]
      else []
    else []
  (db2,
   Event.updateStatus domain.id status error ::
     Event.logCheck domain.id status error :: notes,
   (is_up, error))

/-- `DomainChecker.check_domain_by_name` (`checker.py` lines 50-55): look the
record up by name; raise `ValueError("Домен не найден")` when absent,
otherwise run the per-domain routine with notifications suppressed.  The
raised error is modelled as `Except.error`; the store and trace are returned
alongside so that absence of mutation is expressible. -/
def check_domain_by_name (net : String → NetResult) (db : DB) (name : String) :
    DB × List Event × Except String (Bool × Option String) :=
  match get_domain db name with
  | none => (db, [], Except.error "Домен не найден")
  | some record =>
    let out := check_domain_record net db record false
    (out.1, out.2.1, Except.ok out.2.2)

/-- The proxy-pool operations quantified over in the single-active-proxy
invariant: `add_proxy` and `remove_proxy`. -/
inductive ProxyOp where
  | add (host : String) (port : Nat) (username password country : Option String)
  | remove (proxy_id : Nat)
deriving DecidableEq, Repr

/-- Apply one pool operation to the store. -/
def applyProxyOp (db : DB) : ProxyOp → DB
  | .add host port username password country =>
      (add_proxy db host port username password country).1
  | .remove pid => (remove_proxy db pid).1

/-- Apply a sequence of pool operations, oldest first. -/
def applyProxyOps (db : DB) (ops : List ProxyOp) : DB :=
  ops.foldl applyProxyOp db

/-- The rows currently flagged active. -/
def activeProxies (db : DB) : List Proxy :=
  db.proxies.filter (fun p => p.is_active)

/-- Reachability invariant of the proxy pool maintained by `add_proxy` and
`remove_proxy`: ids are below the autoincrement counter and pairwise
distinct, creation stamps are below the clock and pairwise distinct, every
active row is strictly the latest-created, and a non-empty pool has an
active row. -/
structure ProxyInv (db : DB) : Prop where
  idLt : ∀ p ∈ db.proxies, p.id < db.next_proxy_id
  createdLt : ∀ p ∈ db.proxies, p.created_at < db.now
  pwId : db.proxies.Pairwise (fun p q => p.id ≠ q.id)
  pwCreated : db.proxies.Pairwise (fun p q => p.created_at ≠ q.created_at)
  activeLatest : ∀ p ∈ db.proxies, p.is_active = true →
    ∀ q ∈ db.proxies, q ≠ p → q.created_at < p.created_at
  someActive : db.proxies ≠ [] → ∃ p ∈ db.proxies, p.is_active = true

end DomainMonitor

namespace DomainMonitor

/-! ### Helper lemmas -/

/-- The probe reports up exactly when it captured no error. -/
theorem probe_up_iff_no_error (net : String → NetResult) (nm : String) :
    ((perform_check net nm).1 = true ↔ (perform_check net nm).2 = none) := by
  unfold perform_check
  cases h : net (buildUrl nm) with
  | response s => by_cases hs : s < 400 <;> simp [hs]
  | certVerifyError => simp
  | clientSSLError => simp
  | clientError n => simp
  | timeoutError => simp
  | sslOsError => simp

/-- Boolean prefix test is transitive. -/
theorem isPrefixOf_trans {l1 l2 l3 : List Char}
    (h1 : l1.isPrefixOf l2 = true) (h2 : l2.isPrefixOf l3 = true) :
    l1.isPrefixOf l3 = true := by
  induction l1 generalizing l2 l3 with
  | nil => simp [List.isPrefixOf]
  | cons a as ih =>
    cases l2 with
    | nil => simp [List.isPrefixOf] at h1
    | cons b bs =>
      cases l3 with
      | nil => simp [List.isPrefixOf] at h2
      | cons c cs =>
        simp only [List.isPrefixOf, Bool.and_eq_true, beq_iff_eq] at h1 h2 ⊢
        exact ⟨h1.1.trans h2.1, ih h1.2 h2.2⟩

/-- A list is a boolean prefix of itself followed by anything. -/
theorem isPrefixOf_append_self (l t : List Char) : (l.isPrefixOf (l ++ t)) = true := by
  induction l with
  | nil => simp [List.isPrefixOf]
  | cons a as ih => simp [List.isPrefixOf, ih]

/-- If dropping from the front of a cons leaves it unchanged, the head fails
the predicate. -/
theorem dropWhile_cons_eq_self {p : Char → Bool} {a : Char} {t : List Char}
    (h : List.dropWhile p (a :: t) = a :: t) : p a = false := by
  by_cases hp : p a = true
  · rw [List.dropWhile_cons, if_pos hp] at h
    have hlen : (t.dropWhile p).length ≤ t.length := (List.dropWhile_sublist p).length_le
    rw [h] at hlen
    simp at hlen
  · simpa using hp

/-- Left-stripping distributes over append of two already-stripped lists. -/
theorem dropWhile_append_self {p : Char → Bool} {l l2 : List Char}
    (h : l.dropWhile p = l) (h2 : l2.dropWhile p = l2) :
    (l ++ l2).dropWhile p = l ++ l2 := by
  cases l with
  | nil => simpa using h2
  | cons a t =>
    have ha : p a = false := dropWhile_cons_eq_self h
    simp [List.dropWhile_cons, ha]

/-- Right-stripping distributes over append of two already-stripped lists. -/
theorem dropRightWhile_append_self {p : Char → Bool} {l l2 : List Char}
    (h : dropRightWhileList p l = l) (h2 : dropRightWhileList p l2 = l2) :
    dropRightWhileList p (l ++ l2) = l ++ l2 := by
  unfold dropRightWhileList at *
  rw [List.reverse_append]
  have hl : l.reverse.dropWhile p = l.reverse := by
    have := congrArg List.reverse h
    simpa using this
  have hl2 : l2.reverse.dropWhile p = l2.reverse := by
    have := congrArg List.reverse h2
    simpa using this
  rw [dropWhile_append_self hl2 hl, ← List.reverse_append]
  simp

/-- Trimming fixes the append of two whitespace-free-ended lists. -/
theorem trim_append_self {l l2 : List Char}
    (ha : l.dropWhile isWs = l) (hb : dropRightWhileList isWs l = l)
    (hc : l2.dropWhile isWs = l2) (hd : dropRightWhileList isWs l2 = l2) :
    trimList (l ++ l2) = l ++ l2 := by
  unfold trimList
  rw [dropWhile_append_self ha hc, dropRightWhile_append_self hb hd]

/-- `latestProxy` returns `none` only on the empty pool. -/
theorem latestProxy_eq_none {ps : List Proxy} (h : latestProxy ps = none) : ps = [] := by
  cases ps with
  | nil => rfl
  | cons p t =>
    exfalso
    simp only [latestProxy] at h
    cases ht : latestProxy t with
    | none => rw [ht] at h; simp at h
    | some q =>
      rw [ht] at h
      by_cases hc : q.created_at ≤ p.created_at <;> simp [hc] at h

/-- The row picked by `latestProxy` belongs to the pool. -/
theorem latestProxy_mem {ps : List Proxy} {q : Proxy} (h : latestProxy ps = some q) :
    q ∈ ps := by
  induction ps generalizing q with
  | nil => simp [latestProxy] at h
  | cons p t ih =>
    simp only [latestProxy] at h
    cases ht : latestProxy t with
    | none =>
      rw [ht] at h
      simp at h
      subst h
      exact List.mem_cons_self _ _
    | some r =>
      rw [ht] at h
      by_cases hc : r.created_at ≤ p.created_at
      · simp [hc] at h
        subst h
        exact List.mem_cons_self _ _
      · simp [hc] at h
        subst h
        exact List.mem_cons_of_mem _ (ih ht)

/-- The row picked by `latestProxy` has maximal creation stamp. -/
theorem latestProxy_le {ps : List Proxy} {q : Proxy} (h : latestProxy ps = some q) :
    ∀ p ∈ ps, p.created_at ≤ q.created_at := by
  induction ps generalizing q with
  | nil => simp
  | cons p t ih =>
    intro x hx
    simp only [latestProxy] at h
    cases ht : latestProxy t with
    | none =>
      rw [ht] at h
      simp at h
      subst h
      have : t = [] := latestProxy_eq_none ht
      subst this
      simp at hx
      subst hx
      exact le_refl _
    | some r =>
      rw [ht] at h
      rcases List.mem_cons.mp hx with rfl | hxt
      · by_cases hc : r.created_at ≤ x.created_at
        · simp [hc] at h; subst h; exact le_refl _
        · simp [hc] at h; subst h; omega
      · have hxr := ih ht x hxt
        by_cases hc : r.created_at ≤ p.created_at
        · simp [hc] at h; subst h; omega
        · simp [hc] at h; subst h; exact hxr

/-- The pool invariant holds whenever the pool is empty. -/
theorem proxyInv_empty {db : DB} (h : db.proxies = []) : ProxyInv db := by
  constructor <;> simp [h]

/-- `add_proxy` preserves the pool invariant. -/
theorem proxyInv_add (db : DB) (h : ProxyInv db) (host : String) (port : Nat)
    (u pw c : Option String) :
    ProxyInv (add_proxy db host port u pw c).1 := by
  obtain ⟨idLt, createdLt, pwId, pwCreated, activeLatest, someActive⟩ := h
  have hps : (add_proxy db host port u pw c).1.proxies =
      db.proxies.map (fun p => { p with is_active := false }) ++
        [⟨db.next_proxy_id, host, port, u, pw, c, true, db.now⟩] := rfl
  have hnext : (add_proxy db host port u pw c).1.next_proxy_id = db.next_proxy_id + 1 := rfl
  have hnow : (add_proxy db host port u pw c).1.now = db.now + 1 := rfl
  constructor
  · intro p hp
    rw [hnext]
    rw [hps] at hp
    rcases List.mem_append.mp hp with hp | hp
    · rcases List.mem_map.mp hp with ⟨p0, hp0, rfl⟩
      exact Nat.lt_succ_of_lt (idLt p0 hp0)
    · rcases List.mem_singleton.mp hp with rfl
      exact Nat.lt_succ_self _
  · intro p hp
    rw [hnow]
    rw [hps] at hp
    rcases List.mem_append.mp hp with hp | hp
    · rcases List.mem_map.mp hp with ⟨p0, hp0, rfl⟩
      exact Nat.lt_succ_of_lt (createdLt p0 hp0)
    · rcases List.mem_singleton.mp hp with rfl
      exact Nat.lt_succ_self _
  · rw [hps]
    refine List.pairwise_append.mpr ⟨List.pairwise_map.mpr ?_, List.pairwise_singleton _ _, ?_⟩
    · exact pwId
    · intro a ha b hb
      rcases List.mem_map.mp ha with ⟨a0, ha0, rfl⟩
      rcases List.mem_singleton.mp hb with rfl
      exact Nat.ne_of_lt (idLt a0 ha0)
  · rw [hps]
    refine List.pairwise_append.mpr ⟨List.pairwise_map.mpr ?_, List.pairwise_singleton _ _, ?_⟩
    · exact pwCreated
    · intro a ha b hb
      rcases List.mem_map.mp ha with ⟨a0, ha0, rfl⟩
      rcases List.mem_singleton.mp hb with rfl
      exact Nat.ne_of_lt (createdLt a0 ha0)
  · intro p hp hact q hq hne
    rw [hps] at hp hq
    rcases List.mem_append.mp hp with hp | hp
    · rcases List.mem_map.mp hp with ⟨p0, _, rfl⟩
      simp at hact
    · rcases List.mem_singleton.mp hp with rfl
      rcases List.mem_append.mp hq with hq | hq
      · rcases List.mem_map.mp hq with ⟨q0, hq0, rfl⟩
        exact createdLt q0 hq0
      · rcases List.mem_singleton.mp hq with rfl
        exact absurd rfl hne
  · intro _
    refine ⟨⟨db.next_proxy_id, host, port, u, pw, c, true, db.now⟩, ?_, rfl⟩
    rw [hps]
    exact List.mem_append_right _ (List.mem_singleton.mpr rfl)

/-- `remove_proxy` preserves the pool invariant. -/
theorem proxyInv_remove (db : DB) (h : ProxyInv db) (pid : Nat) :
    ProxyInv (remove_proxy db pid).1 := by
  obtain ⟨idLt, createdLt, pwId, pwCreated, activeLatest, someActive⟩ := h
  by_cases hany : db.proxies.any (fun p => p.id == pid) = true
  · cases hl : latestProxy (db.proxies.filter (fun p => p.id != pid)) with
    | none =>
      have hdb : (remove_proxy db pid).1 =
          { db with proxies := db.proxies.filter (fun p => p.id != pid) } := by
        simp [remove_proxy, hany, hl]
      rw [hdb]
      exact proxyInv_empty (latestProxy_eq_none hl)
    | some q =>
      have hdb : (remove_proxy db pid).1 = { db with proxies := List.map (fun p => if p.id = q.id then { p with is_active := true } else p) (db.proxies.filter (fun p => p.id != pid)) } := by
        simp [remove_proxy, hany, hl]
      rw [hdb]
      have hsub : ∀ x ∈ db.proxies.filter (fun p => p.id != pid), x ∈ db.proxies :=
        fun x hx => (List.mem_filter.mp hx).1
      have hqrem : q ∈ db.proxies.filter (fun p => p.id != pid) := latestProxy_mem hl
      have hqmem : q ∈ db.proxies := hsub q hqrem
      have hid_inj : ∀ a ∈ db.proxies, ∀ b ∈ db.proxies, a ≠ b → a.id ≠ b.id :=
        fun a ha b hb hab => pwId.forall (fun _ _ hne => fun e => hne e.symm) ha hb hab
      have hcr_ne : ∀ a ∈ db.proxies, ∀ b ∈ db.proxies, a ≠ b → a.created_at ≠ b.created_at :=
        fun a ha b hb hab => pwCreated.forall (fun _ _ hne => fun e => hne e.symm) ha hb hab
      have gid : ∀ p : Proxy,
          (if p.id = q.id then { p with is_active := true } else p).id = p.id := by
        intro p
        by_cases hc : p.id = q.id <;> simp [hc]
      have gcr : ∀ p : Proxy,
          (if p.id = q.id then { p with is_active := true } else p).created_at =
            p.created_at := by
        intro p
        by_cases hc : p.id = q.id <;> simp [hc]
      constructor
      · intro p hp
        rcases List.mem_map.mp hp with ⟨p0, hp0, rfl⟩
        rw [gid]
        exact idLt p0 (hsub p0 hp0)
      · intro p hp
        rcases List.mem_map.mp hp with ⟨p0, hp0, rfl⟩
        rw [gcr]
        exact createdLt p0 (hsub p0 hp0)
      · refine List.pairwise_map.mpr ?_
        refine List.Pairwise.imp ?_ ((pwId.sublist (List.filter_sublist _)))
        intro a b hab
        rw [gid, gid]
        exact hab
      · refine List.pairwise_map.mpr ?_
        refine List.Pairwise.imp ?_ ((pwCreated.sublist (List.filter_sublist _)))
        intro a b hab
        rw [gcr, gcr]
        exact hab
      · intro p' hp' hact' q' hq' hne'
        rcases List.mem_map.mp hp' with ⟨p0, hp0, rfl⟩
        rcases List.mem_map.mp hq' with ⟨p1, hp1, rfl⟩
        by_cases h0 : p0.id = q.id
        · have hp0q : p0 = q := by
            by_contra hne0
            exact hid_inj p0 (hsub p0 hp0) q hqmem hne0 h0
          by_cases h1 : p1.id = q.id
          · have hp1q : p1 = q := by
              by_contra hne1
              exact hid_inj p1 (hsub p1 hp1) q hqmem hne1 h1
            exact absurd (by rw [hp0q, hp1q]) hne'
          · rw [gcr p1, gcr p0, hp0q]
            have hle := latestProxy_le hl p1 hp1
            have hne1 : p1 ≠ q := fun e => h1 (by rw [e])
            exact lt_of_le_of_ne hle (hcr_ne p1 (hsub p1 hp1) q hqmem hne1)
        · have hact0 : p0.is_active = true := by rwa [if_neg h0] at hact'
          have hq0 : q ≠ p0 := fun e => h0 (by rw [← e])
          have hlt := activeLatest p0 (hsub p0 hp0) hact0 q hqmem hq0
          have hle := latestProxy_le hl p0 hp0
          rw [gcr p1, gcr p0]
          omega
      · intro _
        refine ⟨if q.id = q.id then { q with is_active := true } else q,
          List.mem_map_of_mem _ hqrem, ?_⟩
        simp
  · have hdb : (remove_proxy db pid).1 = db := by
      simp [remove_proxy, hany]
    rw [hdb]
    exact ⟨idLt, createdLt, pwId, pwCreated, activeLatest, someActive⟩

/-- One pool operation preserves the invariant. -/
theorem proxyInv_step (db : DB) (h : ProxyInv db) (op : ProxyOp) :
    ProxyInv (applyProxyOp db op) := by
  cases op with
  | add host port u pw c => exact proxyInv_add db h host port u pw c
  | remove pid => exact proxyInv_remove db h pid

/-- A whole sequence of pool operations preserves the invariant. -/
theorem proxyInv_ops (db : DB) (h : ProxyInv db) (ops : List ProxyOp) :
    ProxyInv (applyProxyOps db ops) := by
  induction ops generalizing db with
  | nil => exact h
  | cons op rest ih => exact ih _ (proxyInv_step db h op)

/-- The invariant bounds the number of active rows. -/
theorem activeProxies_of_inv (db : DB) (h : ProxyInv db) :
    (activeProxies db).length ≤ 1 ∧
    (db.proxies ≠ [] → (activeProxies db).length = 1) := by
  obtain ⟨-, -, pwId, -, activeLatest, someActive⟩ := h
  have hle : (activeProxies db).length ≤ 1 := by
    rcases hfl : activeProxies db with _ | ⟨a, _ | ⟨b, t⟩⟩
    · simp
    · simp
    · exfalso
      have hpw : (activeProxies db).Pairwise (fun p q => p.id ≠ q.id) :=
        pwId.filter _
      rw [hfl] at hpw
      have hab : a.id ≠ b.id := (List.pairwise_cons.mp hpw).1 b (List.mem_cons_self _ _)
      have hab' : a ≠ b := fun e => hab (by rw [e])
      have ham : a ∈ activeProxies db := by rw [hfl]; exact List.mem_cons_self _ _
      have hbm : b ∈ activeProxies db := by
        rw [hfl]
        exact List.mem_cons_of_mem _ (List.mem_cons_self _ _)
      have ha' := List.mem_filter.mp ham
      have hb' := List.mem_filter.mp hbm
      have h1 := activeLatest a ha'.1 ha'.2 b hb'.1 (fun e => hab' e.symm)
      have h2 := activeLatest b hb'.1 hb'.2 a ha'.1 hab'
      omega
  refine ⟨hle, ?_⟩
  intro hne
  obtain ⟨p, hp, hact⟩ := someActive hne
  have hmem : p ∈ activeProxies db := List.mem_filter.mpr ⟨hp, hact⟩
  have hpos : 0 < (activeProxies db).length := List.length_pos.mpr (List.ne_nil_of_mem hmem)
  omega

end DomainMonitor

namespace DomainMonitor

/-! ### Claim theorems -/

/-- C1 (counterexample to the claim as stated): a record whose stored
previous status is `"unknown"`, probed with notifications enabled and found
down (HTTP 503), does produce a notification — `_check_domain_record` enters
the `status == "down"` branch whenever the status changed, including from
`"unknown"`. -/
theorem C1_counterexample :
    notificationsOf (check_domain_record (fun _ => NetResult.response 503)
      ⟨[], [], [], [], 0, 0⟩ ⟨1, "example.com", some "unknown", none, none⟩ true).2.1 ≠ [] := by
  decide

/-- C1 (amended): with previous status `"unknown"` and notifications enabled,
a probe that comes back up produces no notification, but a probe that comes
back down produces exactly one downtime notification; a recovery
notification, for any record, requires the previous status to be exactly
`"down"`. -/
theorem C1_first_check_notifications (net : String → NetResult) (db : DB)
    (r : DomainRecord) (h : prevStatusOf r = "unknown") :
    ((perform_check net r.name).1 = true →
      notificationsOf (check_domain_record net db r true).2.1 = []) ∧
    ((perform_check net r.name).1 = false →
      notificationsOf (check_domain_record net db r true).2.1 =
        [Event.notifyDown r.name (pyOrStr (perform_check net r.name).2 "Unknown error")]) ∧
    (∀ r' : DomainRecord, ∀ db' : DB,
      Event.notifyUp r'.name ∈ notificationsOf (check_domain_record net db' r' true).2.1 →
      prevStatusOf r' = "down") := by
  have htr : ∀ (db0 : DB) (r0 : DomainRecord), (check_domain_record net db0 r0 true).2.1 =
      Event.updateStatus r0.id (if (perform_check net r0.name).1 then "up" else "down")
          (perform_check net r0.name).2 ::
        Event.logCheck r0.id (if (perform_check net r0.name).1 then "up" else "down")
          (perform_check net r0.name).2 ::
        (if (true : Bool) = true ∧ prevStatusOf r0 ≠ (if (perform_check net r0.name).1 then "up" else "down") then
           if (if (perform_check net r0.name).1 then "up" else "down") = "down" then
             [Event.notifyDown r0.name (pyOrStr (perform_check net r0.name).2 "Unknown error")]
           else if prevStatusOf r0 = "down" ∧ (if (perform_check net r0.name).1 then "up" else "down") = "up" then
             [Event.notifyUp r0.name]
           else []
         else []) := fun _ _ => rfl
  refine ⟨?_, ?_, ?_⟩
  · intro hup
    rw [htr db r, hup]
    simp [notificationsOf, Event.isNotification, h]
  · intro hdn
    rw [htr db r, hdn]
    simp [notificationsOf, Event.isNotification, h]
  · intro r' db' hm
    rw [htr db' r'] at hm
    by_contra hne
    revert hm
    repeat' split
    all_goals simp_all [notificationsOf, Event.isNotification]

/-- C1 witness: concrete first-ever check that comes back up stays silent. -/
theorem C1_first_check_notifications_witness :
    prevStatusOf ⟨1, "example.com", some "unknown", none, none⟩ = "unknown" ∧
    notificationsOf (check_domain_record (fun _ => NetResult.response 200)
      ⟨[], [], [], [], 0, 0⟩ ⟨1, "example.com", some "unknown", none, none⟩ true).2.1 = [] :=
  ⟨by decide,
   (C1_first_check_notifications (fun _ => NetResult.response 200) ⟨[], [], [], [], 0, 0⟩
      ⟨1, "example.com", some "unknown", none, none⟩ (by decide)).1 (by decide)⟩

/-- C2: every invocation of `_check_domain_record`, for any probe outcome and
any notification flag, appends exactly one check-log row (stamped with the
new status and error), updates `last_status`, `last_error` and `last_checked`
of every domain row with the checked record's id, and the event trace is
exactly the status update, then the log append, then the notifier calls —
so both writes precede any notification decision. -/
theorem C2_unconditional_persistence (net : String → NetResult) (db : DB)
    (r : DomainRecord) (notify : Bool) :
    (check_domain_record net db r notify).1.check_logs =
      db.check_logs ++ [⟨r.id, db.now + 1,
        (if (perform_check net r.name).1 then "up" else "down"),
        (perform_check net r.name).2⟩] ∧
    (∀ d ∈ (check_domain_record net db r notify).1.domains, d.id = r.id →
      d.last_status = some (if (perform_check net r.name).1 then "up" else "down") ∧
      d.last_error = (perform_check net r.name).2 ∧
      d.last_checked = some db.now) ∧
    (check_domain_record net db r notify).2.1 =
      Event.updateStatus r.id (if (perform_check net r.name).1 then "up" else "down")
          (perform_check net r.name).2 ::
        Event.logCheck r.id (if (perform_check net r.name).1 then "up" else "down")
          (perform_check net r.name).2 ::
        notificationsOf (check_domain_record net db r notify).2.1 := by
  refine ⟨rfl, ?_, ?_⟩
  · intro d hd hid
    have hdoms : (check_domain_record net db r notify).1.domains =
        db.domains.map (fun d0 =>
          if d0.id = r.id then
            { d0 with last_status := some (if (perform_check net r.name).1 then "up" else "down"),
                      last_error := (perform_check net r.name).2,
                      last_checked := some db.now }
          else d0) := rfl
    rw [hdoms] at hd
    rcases List.mem_map.mp hd with ⟨d0, hd0, hmap⟩
    by_cases h0 : d0.id = r.id
    · subst hmap; simp [h0]
    · exfalso; rw [if_neg h0] at hmap; subst hmap; exact h0 hid
  · have htr : (check_domain_record net db r notify).2.1 =
        Event.updateStatus r.id (if (perform_check net r.name).1 then "up" else "down")
            (perform_check net r.name).2 ::
          Event.logCheck r.id (if (perform_check net r.name).1 then "up" else "down")
            (perform_check net r.name).2 ::
          (if notify = true ∧ prevStatusOf r ≠ (if (perform_check net r.name).1 then "up" else "down") then
             if (if (perform_check net r.name).1 then "up" else "down") = "down" then
               [Event.notifyDown r.name (pyOrStr (perform_check net r.name).2 "Unknown error")]
             else if prevStatusOf r = "down" ∧ (if (perform_check net r.name).1 then "up" else "down") = "up" then
               [Event.notifyUp r.name]
             else []
           else []) := rfl
    rw [htr]
    repeat' split
    all_goals simp [notificationsOf, Event.isNotification]

/-- C2 witness: a concrete down check against a one-domain store appends
exactly its one log row. -/
theorem C2_unconditional_persistence_witness :
    (check_domain_record (fun _ => NetResult.response 500) (DB.mk [] [] [] [] 0 0)
      (DomainRecord.mk 1 "example.com" (some "up") none none) true).1.check_logs =
      [CheckLog.mk 1 1 "down" (some "HTTP 500")] := by
  rw [(C2_unconditional_persistence (fun _ => NetResult.response 500)
    (DB.mk [] [] [] [] 0 0) (DomainRecord.mk 1 "example.com" (some "up") none none) true).1]
  decide

/-- C3: when no stored domain has the normalized form of the requested name,
`check_domain_by_name` returns the NotFound error (`ValueError("Домен не
найден")`) and the whole store — domains, check logs, proxies, subscribers —
is returned unchanged, with an empty event trace. -/
theorem C3_checkone_notfound (net : String → NetResult) (db : DB) (name : String)
    (h : ∀ d ∈ db.domains, d.name ≠ normalize_domain name) :
    check_domain_by_name net db name = (db, [], Except.error "Домен не найден") := by
  have hnone : get_domain db name = none := by
    rw [get_domain, List.find?_eq_none]
    intro d hd
    simpa using h d hd
  rw [check_domain_by_name, hnone]

/-- C3 witness: checking an unregistered name against a one-domain store. -/
theorem C3_checkone_notfound_witness :
    (∀ d ∈ (DB.mk [DomainRecord.mk 1 "other.com" (some "up") none none] [] [] [] 0 0).domains,
      d.name ≠ normalize_domain "missing.com") ∧
    check_domain_by_name (fun _ => NetResult.timeoutError)
        (DB.mk [DomainRecord.mk 1 "other.com" (some "up") none none] [] [] [] 0 0)
        "missing.com" =
      (DB.mk [DomainRecord.mk 1 "other.com" (some "up") none none] [] [] [] 0 0, [],
        Except.error "Домен не найден") :=
  ⟨by decide,
   C3_checkone_notfound (fun _ => NetResult.timeoutError)
     (DB.mk [DomainRecord.mk 1 "other.com" (some "up") none none] [] [] [] 0 0)
     "missing.com" (by decide)⟩

/-- C4: the probe is a total function of the network behaviour — it returns
exactly one outcome for every modelled input.  Every non-response input (the
caught exception classes) yields `isUp = false` with an error kind set, and
every TLS/certificate failure arm (`ClientConnectorCertificateError`,
`ClientSSLError`, `ssl.SSLError`) yields exactly `"ERR_SSL_PROTOCOL_ERROR"`. -/
theorem C4_probe_total_classification (net : String → NetResult) (domain : String) :
    ((∀ code : Nat, net (buildUrl domain) ≠ NetResult.response code) →
      (perform_check net domain).1 = false ∧ (perform_check net domain).2 ≠ none) ∧
    ((net (buildUrl domain) = NetResult.certVerifyError ∨
      net (buildUrl domain) = NetResult.clientSSLError ∨
      net (buildUrl domain) = NetResult.sslOsError) →
      perform_check net domain = (false, some "ERR_SSL_PROTOCOL_ERROR")) := by
  unfold perform_check
  cases h : net (buildUrl domain) <;> simp_all

/-- C4 witness: a certificate validation failure is classified with the exact
token. -/
theorem C4_probe_total_classification_witness :
    perform_check (fun _ => NetResult.certVerifyError) "example.com" =
      (false, some "ERR_SSL_PROTOCOL_ERROR") :=
  (C4_probe_total_classification (fun _ => NetResult.certVerifyError) "example.com").2
    (Or.inl rfl)

/-- C5: when the probe obtains an HTTP response, a status code below 400
classifies as up with no error, and a status code of 400 or above classifies
as down with error string `"HTTP <code>"`. -/
theorem C5_http_status_classification (net : String → NetResult) (domain : String)
    (code : Nat) (h : net (buildUrl domain) = NetResult.response code) :
    (code < 400 → perform_check net domain = (true, none)) ∧
    (400 ≤ code → perform_check net domain = (false, some ("HTTP " ++ toString code))) := by
  unfold perform_check
  rw [h]
  constructor
  · intro hlt
    simp [hlt]
  · intro hge
    have hnlt : ¬ code < 400 := by omega
    simp [hnlt]

/-- C5 witness: an HTTP 404 response classifies as down with `"HTTP 404"`. -/
theorem C5_http_status_classification_witness :
    (fun _ => NetResult.response 404) (buildUrl "example.com") = NetResult.response 404 ∧
    perform_check (fun _ => NetResult.response 404) "example.com" =
      (false, some ("HTTP " ++ toString 404)) :=
  ⟨rfl, (C5_http_status_classification (fun _ => NetResult.response 404) "example.com" 404
      rfl).2 (by decide)⟩

/-- C6 (counterexample to the claim as stated): `"httpbin.org"` carries no
`http://` or `https://` scheme, yet the code — which tests only
`startswith("http")` — uses it as-is instead of prepending `https://`. -/
theorem C6_counterexample :
    ("http://".data.isPrefixOf "httpbin.org".data) = false ∧
    ("https://".data.isPrefixOf "httpbin.org".data) = false ∧
    buildUrl "httpbin.org" ≠ "https://" ++ "httpbin.org" := by
  decide

/-- C6 (amended): the probe's target URL is the stored name itself whenever
the name starts with the four characters `http` — which includes every name
carrying an `http://` or `https://` scheme, but also schemeless names such as
`httpbin.org` — and is `https://` prepended to the name otherwise. -/
theorem C6_url_construction (name : String) :
    (("http".data.isPrefixOf name.data) = true → buildUrl name = name) ∧
    (("http://".data.isPrefixOf name.data) = true ∨
      ("https://".data.isPrefixOf name.data) = true → buildUrl name = name) ∧
    (("http".data.isPrefixOf name.data) = false → buildUrl name = "https://" ++ name) := by
  refine ⟨?_, ?_, ?_⟩
  · intro h
    rw [buildUrl, if_pos h]
  · intro h
    have hp : ("http".data.isPrefixOf name.data) = true := by
      rcases h with h | h
      · exact isPrefixOf_trans (by decide) h
      · exact isPrefixOf_trans (by decide) h
    rw [buildUrl, if_pos hp]
  · intro h
    rw [buildUrl, if_neg (by simp [h])]

/-- C6 witness: the schemeless name `httpbin.org` starts with `http` and is
used as the URL unchanged, while `example.com` gets `https://` prepended. -/
theorem C6_url_construction_witness :
    (("http".data.isPrefixOf "httpbin.org".data) = true ∧
      buildUrl "httpbin.org" = "httpbin.org") ∧
    (("http".data.isPrefixOf "example.com".data) = false ∧
      buildUrl "example.com" = "https://" ++ "example.com") :=
  ⟨⟨by decide, (C6_url_construction "httpbin.org").1 (by decide)⟩,
   ⟨by decide, (C6_url_construction "example.com").2.2 (by decide)⟩⟩

/-- C7: after any finite sequence of `add_proxy`/`remove_proxy` operations
starting from a store with an empty proxy pool, at most one proxy is flagged
active, and if the pool is non-empty exactly one proxy is active. -/
theorem C7_single_active_proxy (ops : List ProxyOp) (db : DB) (h : db.proxies = []) :
    (activeProxies (applyProxyOps db ops)).length ≤ 1 ∧
    ((applyProxyOps db ops).proxies ≠ [] →
      (activeProxies (applyProxyOps db ops)).length = 1) :=
  activeProxies_of_inv _ (proxyInv_ops db (proxyInv_empty h) ops)

/-- C7 witness: two adds followed by a remove on an initially empty pool. -/
theorem C7_single_active_proxy_witness :
    (DB.mk [] [] [] [] 0 0).proxies = [] ∧
    ((activeProxies (applyProxyOps (DB.mk [] [] [] [] 0 0)
        [ProxyOp.add "proxy.example" 8080 none none (some "turkey"),
         ProxyOp.add "proxy2.example" 1080 (some "u") (some "pw") none,
         ProxyOp.remove 1])).length ≤ 1 ∧
     ((applyProxyOps (DB.mk [] [] [] [] 0 0)
        [ProxyOp.add "proxy.example" 8080 none none (some "turkey"),
         ProxyOp.add "proxy2.example" 1080 (some "u") (some "pw") none,
         ProxyOp.remove 1]).proxies ≠ [] →
      (activeProxies (applyProxyOps (DB.mk [] [] [] [] 0 0)
        [ProxyOp.add "proxy.example" 8080 none none (some "turkey"),
         ProxyOp.add "proxy2.example" 1080 (some "u") (some "pw") none,
         ProxyOp.remove 1])).length = 1)) :=
  ⟨rfl, C7_single_active_proxy _ _ rfl⟩

/-- C8 (counterexample to the claim as stated): normalization is not
idempotent — `"http://http://x"` normalizes to `"http://x"`, and a second
application strips the surviving scheme prefix down to `"x"`. -/
theorem C8_counterexample :
    normalize_domain (normalize_domain "http://http://x") ≠
      normalize_domain "http://http://x" := by
  decide

/-- C8 (amended): normalization trims surrounding whitespace, lowercases,
strips at most one leading `http://`/`https://` scheme prefix, and strips
leading and trailing slashes, so scheme/case/slash variants of a plain
domain name normalize to the same canonical name; for a trimmed, lowercase
name carrying no scheme prefix of its own, prepending either scheme leaves
the normal form unchanged, and if it also has no leading or trailing slash
it is a fixed point of normalization.  Normalization is not idempotent on
arbitrary strings (see the counterexample). -/
theorem C8_normalization (s : String)
    (h1 : s.data.dropWhile isWs = s.data)
    (h2 : dropRightWhileList isWs s.data = s.data)
    (h3 : s.data.map lowerChar = s.data)
    (h4 : ("http://".data.isPrefixOf s.data) = false)
    (h5 : ("https://".data.isPrefixOf s.data) = false) :
    (normalize_domain "HTTPS://Example.com/" = "example.com" ∧
     normalize_domain "Example.com/" = "example.com" ∧
     normalize_domain "https://example.com" = "example.com" ∧
     normalize_domain "  HTTP://EXAMPLE.COM///" = "example.com" ∧
     normalize_domain "example.com" = "example.com") ∧
    normalize_domain ("http://" ++ s) = normalize_domain s ∧
    normalize_domain ("https://" ++ s) = normalize_domain s ∧
    (s.data.dropWhile (fun c => c == '/') = s.data →
     dropRightWhileList (fun c => c == '/') s.data = s.data →
     normalize_domain s = s) := by
  have hsd : normList s.data = stripSlashList s.data := by
    simp [normList, trimList, h1, h2, h3, h4, h5]
  refine ⟨by decide, ?_, ?_, ?_⟩
  · have hleft : normList ("http://".data ++ s.data) = stripSlashList s.data := by
      have htrim : trimList ("http://".data ++ s.data) = "http://".data ++ s.data :=
        trim_append_self rfl rfl h1 h2
      have hmap : ("http://".data ++ s.data).map lowerChar = "http://".data ++ s.data := by
        rw [List.map_append, h3]
        norm_num
        decide
      have hif1 : ("http://".data.isPrefixOf ("http://".data ++ s.data)) = true :=
        isPrefixOf_append_self _ _
      have hdrop : List.drop 7 ("http://".data ++ s.data) = s.data :=
        List.drop_left' (by decide)
      simp only [normList]
      rw [htrim, hmap, hif1, if_pos rfl, hdrop]
    show (⟨normList ("http://" ++ s).data⟩ : String) = ⟨normList s.data⟩
    rw [String.data_append, hleft, hsd]
  · have hleft : normList ("https://".data ++ s.data) = stripSlashList s.data := by
      have htrim : trimList ("https://".data ++ s.data) = "https://".data ++ s.data :=
        trim_append_self rfl rfl h1 h2
      have hmap : ("https://".data ++ s.data).map lowerChar = "https://".data ++ s.data := by
        rw [List.map_append, h3]
        norm_num
        decide
      have hif0 : ("http://".data.isPrefixOf ("https://".data ++ s.data)) = false := rfl
      have hif2 : ("https://".data.isPrefixOf ("https://".data ++ s.data)) = true :=
        isPrefixOf_append_self _ _
      have hdrop : List.drop 8 ("https://".data ++ s.data) = s.data :=
        List.drop_left' (by decide)
      simp only [normList]
      rw [htrim, hmap, hif0, hif2]
      rw [if_neg (by simp), if_pos rfl, hdrop]
    show (⟨normList ("https://" ++ s).data⟩ : String) = ⟨normList s.data⟩
    rw [String.data_append, hleft, hsd]
  · intro g1 g2
    show (⟨normList s.data⟩ : String) = s
    rw [hsd]
    unfold stripSlashList
    rw [g1, g2]

/-- C8 witness: the canonical name `example.com` satisfies every hypothesis,
and prepending `https://` does not change its normal form. -/
theorem C8_normalization_witness :
    (("example.com".data.dropWhile isWs = "example.com".data) ∧
     (dropRightWhileList isWs "example.com".data = "example.com".data) ∧
     ("example.com".data.map lowerChar = "example.com".data) ∧
     (("http://".data.isPrefixOf "example.com".data) = false) ∧
     (("https://".data.isPrefixOf "example.com".data) = false)) ∧
    normalize_domain ("https://" ++ "example.com") = normalize_domain "example.com" :=
  ⟨⟨by decide, by decide, by decide, by decide, by decide⟩,
   (C8_normalization "example.com" (by decide) (by decide) (by decide) (by decide)
      (by decide)).2.2.1⟩

/-- C10: the probe's outcome pair satisfies `isUp = true` exactly when the
error is `none`, and consequently after a check every domain row carrying
the checked id stores `last_error = none` exactly when the check reported
up. -/
theorem C10_up_iff_no_error (net : String → NetResult) (db : DB)
    (r : DomainRecord) (notify : Bool) :
    ((perform_check net r.name).1 = true ↔ (perform_check net r.name).2 = none) ∧
    (∀ d ∈ (check_domain_record net db r notify).1.domains, d.id = r.id →
      (d.last_error = none ↔ (check_domain_record net db r notify).2.2.1 = true)) := by
  refine ⟨probe_up_iff_no_error net r.name, ?_⟩
  intro d hd hid
  have hret : (check_domain_record net db r notify).2.2.1 = (perform_check net r.name).1 := rfl
  have hdoms : (check_domain_record net db r notify).1.domains =
      db.domains.map (fun d0 =>
        if d0.id = r.id then
          { d0 with last_status := some (if (perform_check net r.name).1 then "up" else "down"),
                    last_error := (perform_check net r.name).2,
                    last_checked := some db.now }
        else d0) := rfl
  rw [hdoms] at hd
  rcases List.mem_map.mp hd with ⟨d0, hd0, hmap⟩
  by_cases h0 : d0.id = r.id
  · subst hmap
    simp only [h0, if_pos rfl]
    rw [hret]
    exact ⟨fun he => (probe_up_iff_no_error net r.name).mpr he,
           fun hb => (probe_up_iff_no_error net r.name).mp hb⟩
  · exfalso
    rw [if_neg h0] at hmap
    subst hmap
    exact h0 hid

/-- C10 witness: a concrete successful probe has no error. -/
theorem C10_up_iff_no_error_witness :
    (perform_check (fun _ => NetResult.response 200) "example.com").1 = true ↔
    (perform_check (fun _ => NetResult.response 200) "example.com").2 = none :=
  (C10_up_iff_no_error (fun _ => NetResult.response 200) (DB.mk [] [] [] [] 0 0)
    (DomainRecord.mk 1 "example.com" none none none) false).1

end DomainMonitor
